import Mathlib

/-!
Verification development for the crypto-listings-bot repository.

The repository polls exchange announcement feeds, extracts candidate token
listings (exchange, symbol, scheduled time) from unstructured text, tracks
the upcoming listings, and fires alert notifications.  This file gives a
shallow embedding of the extraction and lifecycle-tracking pipeline:

* `DateTime` models Python `datetime` values at second resolution (the
  repository never manipulates sub-second components of extracted times);
  comparison of `datetime` values in Python is lexicographic on the fields,
  which `dtLt`/`dtLe` mirror, and `datetime + timedelta` is modelled by
  conversion to a second count on the proleptic Gregorian calendar and back.
* The regular-expression scans of `exchange_monitor._extract_listing_time`,
  `enhanced_exchange_monitor._extract_symbol`,
  `_extract_time_from_mexc_title` and `_extract_time_from_okx_title` are
  implemented as character-level matchers over `List Char`, following
  Python `re` leftmost-match semantics (with the bounded backtracking the
  concrete patterns need).
* The `dateutil.parser.parse` calls are modelled per fragment shape: the
  shapes are fixed by the regex that produced the fragment, and the model
  fills components missing from the text from the default date (today), as
  dateutil does.
* The tracker cycle of `main.check_listings` (admission, expiry sweep,
  started alerts, threshold alerts) is a pure function from the gathered
  candidate batch and the tracker state to the next state plus a trace of
  emitted notification/sleep events.
* The snapshot persistence of `main.save_data`/`load_data` is modelled as
  serialisation to records holding the ISO-formatted time string.
-/

namespace CryptoBot

/-- Calendar date-time with second resolution, modelling Python `datetime`
(the pipeline never uses microseconds of extracted times). -/
structure DateTime where
  year : Nat
  month : Nat
  day : Nat
  hour : Nat
  minute : Nat
  second : Nat
deriving DecidableEq, Repr

/-- Python `datetime <` comparison: lexicographic on the fields. -/
def dtLt (a b : DateTime) : Bool :=
  a.year < b.year || (a.year == b.year &&
    (a.month < b.month || (a.month == b.month &&
      (a.day < b.day || (a.day == b.day &&
        (a.hour < b.hour || (a.hour == b.hour &&
          (a.minute < b.minute || (a.minute == b.minute &&
            a.second < b.second)))))))))

/-- Python `datetime <=` comparison (lexicographic order is total, so
`a <= b` is the negation of `b < a`). -/
def dtLe (a b : DateTime) : Bool := !(dtLt b a)

theorem dtLt_asymm {a b : DateTime} (h : dtLt a b = true) : dtLt b a = false := by
  simp [dtLt] at h ⊢
  omega

theorem dtLt_year {a b : DateTime} (h : a.year < b.year) : dtLt a b = true := by
  simp [dtLt]
  omega

/-- Gregorian leap-year test (as in Python's `calendar`/`datetime`). -/
def isLeap (y : Nat) : Bool := (y % 4 == 0 && y % 100 != 0) || y % 400 == 0

/-- Days in a month of the Gregorian calendar. -/
def daysInMonth (y m : Nat) : Nat :=
  if m == 2 then (if isLeap y then 29 else 28)
  else if m == 4 || m == 6 || m == 9 || m == 11 then 30
  else 31

theorem daysInMonth_le (y m : Nat) : daysInMonth y m ≤ 31 := by
  simp only [daysInMonth]
  split
  · split <;> omega
  · split <;> omega

/-- Days in the year before the first day of month `m` (1-based). -/
def daysBeforeMonth (y m : Nat) : Nat :=
  (match m with
   | 1 => 0 | 2 => 31 | 3 => 59 | 4 => 90 | 5 => 120 | 6 => 151
   | 7 => 181 | 8 => 212 | 9 => 243 | 10 => 273 | 11 => 304 | _ => 334)
  + (if 2 < m && isLeap y then 1 else 0)

/-- Days of the proleptic Gregorian calendar strictly before year `y`
(so `daysBeforeYear 1 = 0`; this is Python's `toordinal` minus one for
January 1st). -/
def daysBeforeYear (y : Nat) : Nat :=
  365 * (y - 1) + (y - 1) / 4 - (y - 1) / 100 + (y - 1) / 400

/-- Seconds since 0001-01-01 00:00:00 of the proleptic Gregorian calendar. -/
def toSecs (t : DateTime) : Nat :=
  (daysBeforeYear t.year + daysBeforeMonth t.year t.month + (t.day - 1)) * 86400
    + t.hour * 3600 + t.minute * 60 + t.second

/-- Civil-from-days conversion (era arithmetic over 400-year cycles):
maps a day count since 0001-01-01 back to `(year, month, day)`. -/
def civilFromDays (d0 : Nat) : Nat × Nat × Nat :=
  let z := d0 + 306
  let era := z / 146097
  let doe := z % 146097
  let yoe := ((doe - doe / 1460) + doe / 36524 - doe / 146096) / 365
  let doy := doe - ((365 * yoe + yoe / 4) - yoe / 100)
  let mp := (5 * doy + 2) / 153
  let dd := doy - (153 * mp + 2) / 5 + 1
  let mm := if mp < 10 then mp + 3 else mp - 9
  let yy := era * 400 + yoe
  (if mm ≤ 2 then yy + 1 else yy, mm, dd)

/-- Inverse of `toSecs`: seconds since 0001-01-01 back to calendar fields. -/
def ofSecs (n : Nat) : DateTime :=
  let (y, m, d) := civilFromDays (n / 86400)
  ⟨y, m, d, n % 86400 / 3600, n % 3600 / 60, n % 60⟩

/-- Python `datetime + timedelta(seconds := n)`. -/
def addSecs (t : DateTime) (n : Nat) : DateTime := ofSecs (toSecs t + n)

/-- Python `(a - b).total_seconds()` for two `datetime` values. -/
def secsDiff (a b : DateTime) : Int := (toSecs a : Int) - (toSecs b : Int)

/-! ### Decimal digit printing and reading

Used for the ISO serialisation of `datetime` values (`isoformat` /
`fromisoformat` in `main.save_data`/`load_data`) and for the string keys
built with Python f-strings in the dedup and alert-ledger logic. -/

/-- The ASCII digit character for `n < 10`. -/
def digitCh (n : Nat) : Char := Char.ofNat (48 + n)

/-- Numeric value of an ASCII digit character. -/
def digitVal (c : Char) : Nat := c.toNat - 48

/-- Zero-padded two-digit decimal rendering. -/
def pad2 (n : Nat) : List Char := [digitCh (n / 10), digitCh (n % 10)]

/-- Zero-padded four-digit decimal rendering. -/
def pad4 (n : Nat) : List Char :=
  [digitCh (n / 1000), digitCh (n / 100 % 10), digitCh (n / 10 % 10), digitCh (n % 10)]

/-- Python `datetime.isoformat()` / `str(datetime)` rendering (microseconds
are zero throughout the pipeline, so the second-resolution form is emitted):
`YYYY-MM-DD<sep>HH:MM:SS` with `sep = 'T'` for `isoformat` and `' '` for
`str`. -/
def fmtDT (sep : Char) (t : DateTime) : List Char :=
  pad4 t.year ++ ('-' :: (pad2 t.month ++ ('-' :: (pad2 t.day ++ (sep ::
    (pad2 t.hour ++ (':' :: (pad2 t.minute ++ (':' :: pad2 t.second)))))))))

def readDigit (c : Char) : Option Nat :=
  if c.isDigit then some (c.toNat - 48) else none

def read2 : List Char → Option (Nat × List Char)
  | c1 :: c2 :: r =>
    match readDigit c1, readDigit c2 with
    | some a, some b => some (10 * a + b, r)
    | _, _ => none
  | _ => none

def read4 : List Char → Option (Nat × List Char)
  | c1 :: c2 :: c3 :: c4 :: r =>
    match readDigit c1, readDigit c2, readDigit c3, readDigit c4 with
    | some a, some b, some c, some d => some (((a * 10 + b) * 10 + c) * 10 + d, r)
    | _, _, _, _ => none
  | _ => none

def expectC (c : Char) : List Char → Option (List Char)
  | x :: r => if x == c then some r else none
  | [] => none

/-- The validity invariant of Python `datetime` fields (`fromisoformat`
rejects strings outside these ranges). -/
def validDT (t : DateTime) : Bool :=
  1 ≤ t.year && t.year ≤ 9999 && 1 ≤ t.month && t.month ≤ 12 &&
  1 ≤ t.day && t.day ≤ daysInMonth t.year t.month &&
  t.hour ≤ 23 && t.minute ≤ 59 && t.second ≤ 59

/-- Python `datetime.fromisoformat` on the second-resolution shape
(`YYYY-MM-DD<sep>HH:MM:SS`): parses the fixed-width fields and validates
the calendar ranges. -/
def parseFmt (sep : Char) (s : List Char) : Option DateTime :=
  match read4 s with
  | none => none
  | some (y, r1) =>
    match expectC '-' r1 with
    | none => none
    | some r2 =>
      match read2 r2 with
      | none => none
      | some (mo, r3) =>
        match expectC '-' r3 with
        | none => none
        | some r4 =>
          match read2 r4 with
          | none => none
          | some (d, r5) =>
            match expectC sep r5 with
            | none => none
            | some r6 =>
              match read2 r6 with
              | none => none
              | some (h, r7) =>
                match expectC ':' r7 with
                | none => none
                | some r8 =>
                  match read2 r8 with
                  | none => none
                  | some (mi, r9) =>
                    match expectC ':' r9 with
                    | none => none
                    | some r10 =>
                      match read2 r10 with
                      | none => none
                      | some (sec, r11) =>
                        match r11 with
                        | [] =>
                          let t : DateTime := ⟨y, mo, d, h, mi, sec⟩
                          if validDT t then some t else none
                        | _ :: _ => none

theorem readDigit_digitCh {n : Nat} (h : n < 10) : readDigit (digitCh n) = some n := by
  interval_cases n <;> decide

theorem read2_pad2 {n : Nat} (h : n < 100) (r : List Char) :
    read2 (pad2 n ++ r) = some (n, r) := by
  have h1 : n / 10 < 10 := by omega
  have h2 : n % 10 < 10 := by omega
  simp [pad2, read2, readDigit_digitCh h1, readDigit_digitCh h2]
  omega

theorem read4_pad4 {n : Nat} (h : n < 10000) (r : List Char) :
    read4 (pad4 n ++ r) = some (n, r) := by
  have h1 : n / 1000 < 10 := by omega
  have h2 : n / 100 % 10 < 10 := by omega
  have h3 : n / 10 % 10 < 10 := by omega
  have h4 : n % 10 < 10 := by omega
  simp [pad4, read4, readDigit_digitCh h1, readDigit_digitCh h2,
    readDigit_digitCh h3, readDigit_digitCh h4]
  omega

theorem read2_pad2_nil {n : Nat} (h : n < 100) : read2 (pad2 n) = some (n, []) := by
  have := read2_pad2 h ([] : List Char)
  simpa using this

/-- Serialising a valid `datetime` and reparsing it restores it exactly
(the `isoformat`/`fromisoformat` round trip). -/
theorem parseFmt_fmtDT (sep : Char) {t : DateTime} (hv : validDT t = true) :
    parseFmt sep (fmtDT sep t) = some t := by
  obtain ⟨y, mo, d, h, mi, sec⟩ := t
  have hb := hv
  simp only [validDT, Bool.and_eq_true, decide_eq_true_eq] at hb
  have hd31 : daysInMonth y mo ≤ 31 := daysInMonth_le y mo
  have hy : y < 10000 := by omega
  have hmo : mo < 100 := by omega
  have hdd : d < 100 := by omega
  have hh : h < 100 := by omega
  have hmi : mi < 100 := by omega
  have hsec : sec < 100 := by omega
  simp only [fmtDT, parseFmt, read4_pad4 hy, expectC, read2_pad2 hmo,
    read2_pad2 hdd, read2_pad2 hh, read2_pad2 hmi, read2_pad2_nil hsec,
    beq_self_eq_true, if_true]
  simp [hv]

/-- `fmtDT` is injective on valid date-times (consequence of the round
trip); this backs the injectivity of the f-string dedup keys. -/
theorem fmtDT_inj (sep : Char) {t1 t2 : DateTime}
    (h1 : validDT t1 = true) (h2 : validDT t2 = true)
    (he : fmtDT sep t1 = fmtDT sep t2) : t1 = t2 := by
  have e1 := parseFmt_fmtDT sep h1
  have e2 := parseFmt_fmtDT sep h2
  rw [he, e2] at e1
  exact (Option.some.injEq _ _ ▸ e1.symm)

/-! ### Character classes and scanning primitives

Python `re` is modelled at the character level for the concrete patterns
the repository uses.  The inputs are announcement texts; the ASCII reading
of `\s`/`\w`/`\d` is used. -/

def isWs (c : Char) : Bool :=
  c == ' ' || c == '\t' || c == '\n' || c == '\r' || c == '\x0b' || c == '\x0c'

def isWordC (c : Char) : Bool := c.isAlpha || c.isDigit || c == '_'

def isUpperAZ (c : Char) : Bool := 'A' ≤ c && c ≤ 'Z'

/-- Maximal run of characters satisfying `p` (greedy repetition of a
character class followed by a disjoint continuation never backtracks). -/
def takeRun (p : Char → Bool) : List Char → List Char × List Char
  | [] => ([], [])
  | c :: r =>
    if p c then
      let (a, b) := takeRun p r
      (c :: a, b)
    else ([], c :: r)

/-- Nonempty maximal run (`\s+`, `\w+`, `\d+`). -/
def takeRun1 (p : Char → Bool) (s : List Char) : Option (List Char × List Char) :=
  match takeRun p s with
  | ([], _) => none
  | (a, b) => some (a, b)

/-- Exactly `k` digit characters (`\d{k}`). -/
def takeDigitsExact : Nat → List Char → Option (List Char × List Char)
  | 0, s => some ([], s)
  | k + 1, c :: r =>
    if c.isDigit then
      match takeDigitsExact k r with
      | some (ds, rest) => some (c :: ds, rest)
      | none => none
    else none
  | _ + 1, [] => none

/-- The two alternatives of greedy `\d{1,2}` in preference order (two
digits first, then one); the caller tries each with its continuation,
which is exactly the regex backtracking behaviour. -/
def d12Alts : List Char → List (List Char × List Char)
  | a :: b :: r =>
    (if a.isDigit && b.isDigit then [([a, b], r)] else []) ++
      (if a.isDigit then [([a], b :: r)] else [])
  | [a] => if a.isDigit then [([a], [])] else []
  | [] => []

/-- Case-insensitive literal match (the scans use `re.IGNORECASE`). -/
def matchCI : List Char → List Char → Option (List Char)
  | [], s => some s
  | c :: cs, x :: xs => if x.toLower == c.toLower then matchCI cs xs else none
  | _ :: _, [] => none

/-- `(?:UTC|GMT)` under `re.IGNORECASE`. -/
def tzMarker (s : List Char) : Option (List Char) :=
  match matchCI ['u', 't', 'c'] s with
  | some r => some r
  | none => matchCI ['g', 'm', 't'] s

def digitsToNat (ds : List Char) : Nat :=
  ds.foldl (fun a c => 10 * a + (c.toNat - 48)) 0

/-- `re.findall` driver: scan left to right, on a match resume after it,
otherwise advance one character.  Every pattern in play consumes at least
one character, so `length + 1` steps of fuel are enough. -/
def scanAux (m : List Char → Option (List Char × List Char)) :
    Nat → List Char → List (List Char)
  | 0, _ => []
  | fuel + 1, s =>
    match m s with
    | some (frag, rest) => frag :: scanAux m fuel rest
    | none =>
      match s with
      | [] => []
      | _ :: t => scanAux m fuel t

/-- `re.search` driver: first position where the matcher succeeds. -/
def searchAux {α : Type} (m : List Char → Option α) : Nat → List Char → Option α
  | 0, _ => none
  | fuel + 1, s =>
    match m s with
    | some a => some a
    | none =>
      match s with
      | [] => none
      | _ :: t => searchAux m fuel t

/-! ### The five absolute time patterns of `_extract_listing_time`

`exchange_monitor.py` lines 355-366; each matcher implements one pattern
at a fixed position and returns the captured fragment (groups joined with
a space when the pattern has two groups, as the code does) together with
the remainder of the text after the whole match. -/

/-- Pattern 1: `(\d{4}-\d{2}-\d{2}\s+\d{1,2}:\d{2})\s*(?:UTC|GMT)`. -/
def matchIsoUtcAt (s : List Char) : Option (List Char × List Char) :=
  match takeDigitsExact 4 s with
  | none => none
  | some (y, r1) =>
    match r1 with
    | '-' :: r2 =>
      match takeDigitsExact 2 r2 with
      | none => none
      | some (mo, r3) =>
        match r3 with
        | '-' :: r4 =>
          match takeDigitsExact 2 r4 with
          | none => none
          | some (dd, r5) =>
            match takeRun1 isWs r5 with
            | none => none
            | some (ws, r6) =>
              (d12Alts r6).findSome? fun alt =>
                match alt.2 with
                | ':' :: r8 =>
                  match takeDigitsExact 2 r8 with
                  | none => none
                  | some (mm, r9) =>
                    let r10 := (takeRun isWs r9).2
                    match tzMarker r10 with
                    | none => none
                    | some r11 =>
                      some (y ++ '-' :: mo ++ '-' :: dd ++ ws ++ alt.1 ++ ':' :: mm, r11)
                | _ => none
        | _ => none
    | _ => none

/-- Pattern 2: `(\w+\s+\d{1,2},\s+\d{4}\s+at\s+\d{1,2}:\d{2})\s*(?:UTC|GMT)`. -/
def matchMonthDayYearAt (s : List Char) : Option (List Char × List Char) :=
  match takeRun1 isWordC s with
  | none => none
  | some (w, r1) =>
    match takeRun1 isWs r1 with
    | none => none
    | some (ws1, r2) =>
      (d12Alts r2).findSome? fun alt =>
        match alt.2 with
        | ',' :: r4 =>
          match takeRun1 isWs r4 with
          | none => none
          | some (ws2, r5) =>
            match takeDigitsExact 4 r5 with
            | none => none
            | some (y, r6) =>
              match takeRun1 isWs r6 with
              | none => none
              | some (ws3, r7) =>
                match matchCI ['a', 't'] r7 with
                | none => none
                | some r8 =>
                  match takeRun1 isWs r8 with
                  | none => none
                  | some (ws4, r9) =>
                    (d12Alts r9).findSome? fun alt2 =>
                      match alt2.2 with
                      | ':' :: r11 =>
                        match takeDigitsExact 2 r11 with
                        | none => none
                        | some (mm, r12) =>
                          let r13 := (takeRun isWs r12).2
                          match tzMarker r13 with
                          | none => none
                          | some r14 =>
                            some (w ++ ws1 ++ alt.1 ++ ',' :: ws2 ++ y ++ ws3 ++
                              r7.take 2 ++ ws4 ++ alt2.1 ++ ':' :: mm, r14)
                      | _ => none
        | _ => none

/-- Pattern 3: `(\d{1,2}\s+\w+\s+\d{4},\s+\d{1,2}:\d{2})\s*(?:UTC|GMT)`. -/
def matchDayMonthYear (s : List Char) : Option (List Char × List Char) :=
  (d12Alts s).findSome? fun alt =>
    match takeRun1 isWs alt.2 with
    | none => none
    | some (ws1, r2) =>
      match takeRun1 isWordC r2 with
      | none => none
      | some (w, r3) =>
        match takeRun1 isWs r3 with
        | none => none
        | some (ws2, r4) =>
          match takeDigitsExact 4 r4 with
          | none => none
          | some (y, r5) =>
            match r5 with
            | ',' :: r6 =>
              match takeRun1 isWs r6 with
              | none => none
              | some (ws3, r7) =>
                (d12Alts r7).findSome? fun alt2 =>
                  match alt2.2 with
                  | ':' :: r9 =>
                    match takeDigitsExact 2 r9 with
                    | none => none
                    | some (mm, r10) =>
                      let r11 := (takeRun isWs r10).2
                      match tzMarker r11 with
                      | none => none
                      | some r12 =>
                        some (alt.1 ++ ws1 ++ w ++ ws2 ++ y ++ ',' :: ws3 ++
                          alt2.1 ++ ':' :: mm, r12)
                  | _ => none
            | _ => none

/-- Pattern 4: `(\d{1,2}:\d{2})\s*(?:UTC|GMT)\s+on\s+(\w+\s+\d{1,2})`;
the two captured groups are joined with a single space, as the code's
`' '.join(match)` does. -/
def matchTimeOnMonthDay (s : List Char) : Option (List Char × List Char) :=
  (d12Alts s).findSome? fun alt =>
    match alt.2 with
    | ':' :: r2 =>
      match takeDigitsExact 2 r2 with
      | none => none
      | some (mm, r3) =>
        let r4 := (takeRun isWs r3).2
        match tzMarker r4 with
        | none => none
        | some r5 =>
          match takeRun1 isWs r5 with
          | none => none
          | some (_, r6) =>
            match matchCI ['o', 'n'] r6 with
            | none => none
            | some r7 =>
              match takeRun1 isWs r7 with
              | none => none
              | some (_, r8) =>
                match takeRun1 isWordC r8 with
                | none => none
                | some (w, r9) =>
                  match takeRun1 isWs r9 with
                  | none => none
                  | some (ws, r10) =>
                    (d12Alts r10).findSome? fun alt2 =>
                      some (alt.1 ++ ':' :: mm ++ ' ' :: (w ++ ws ++ alt2.1), alt2.2)
    | _ => none

/-- Pattern 5: `(?:start|begin|commence)\s+at\s+(\d{1,2}:\d{2})\s*(?:UTC|GMT)`. -/
def matchVerbAt (s : List Char) : Option (List Char × List Char) :=
  [['s', 't', 'a', 'r', 't'], ['b', 'e', 'g', 'i', 'n'],
   ['c', 'o', 'm', 'm', 'e', 'n', 'c', 'e']].findSome? fun v =>
    match matchCI v s with
    | none => none
    | some r1 =>
      match takeRun1 isWs r1 with
      | none => none
      | some (_, r2) =>
        match matchCI ['a', 't'] r2 with
        | none => none
        | some r3 =>
          match takeRun1 isWs r3 with
          | none => none
          | some (_, r4) =>
            (d12Alts r4).findSome? fun alt =>
              match alt.2 with
              | ':' :: r6 =>
                match takeDigitsExact 2 r6 with
                | none => none
                | some (mm, r7) =>
                  let r8 := (takeRun isWs r7).2
                  match tzMarker r8 with
                  | none => none
                  | some r9 => some (alt.1 ++ ':' :: mm, r9)
              | _ => none

def findAllIsoUtc (s : List Char) : List (List Char) :=
  scanAux matchIsoUtcAt (s.length + 1) s

def findAllMonthDayYearAt (s : List Char) : List (List Char) :=
  scanAux matchMonthDayYearAt (s.length + 1) s

def findAllDayMonthYear (s : List Char) : List (List Char) :=
  scanAux matchDayMonthYear (s.length + 1) s

def findAllTimeOnMonthDay (s : List Char) : List (List Char) :=
  scanAux matchTimeOnMonthDay (s.length + 1) s

def findAllVerbAt (s : List Char) : List (List Char) :=
  scanAux matchVerbAt (s.length + 1) s

/-! ### The relative time patterns of `_extract_listing_time`

`exchange_monitor.py` lines 397-401: `in\s+(\d+)\s+hours?`,
`in\s+(\d+)\s+days?`, `after\s+(\d+)\s+hours?`, searched with
`re.search(..., re.IGNORECASE)`; the captured digits parse with `int`. -/

def matchInHoursAt (s : List Char) : Option Nat :=
  match matchCI ['i', 'n'] s with
  | none => none
  | some r1 =>
    match takeRun1 isWs r1 with
    | none => none
    | some (_, r2) =>
      match takeRun1 Char.isDigit r2 with
      | none => none
      | some (ds, r3) =>
        match takeRun1 isWs r3 with
        | none => none
        | some (_, r4) =>
          match matchCI ['h', 'o', 'u', 'r'] r4 with
          | none => none
          | some _ => some (digitsToNat ds)

def matchInDaysAt (s : List Char) : Option Nat :=
  match matchCI ['i', 'n'] s with
  | none => none
  | some r1 =>
    match takeRun1 isWs r1 with
    | none => none
    | some (_, r2) =>
      match takeRun1 Char.isDigit r2 with
      | none => none
      | some (ds, r3) =>
        match takeRun1 isWs r3 with
        | none => none
        | some (_, r4) =>
          match matchCI ['d', 'a', 'y'] r4 with
          | none => none
          | some _ => some (digitsToNat ds)

def matchAfterHoursAt (s : List Char) : Option Nat :=
  match matchCI ['a', 'f', 't', 'e', 'r'] s with
  | none => none
  | some r1 =>
    match takeRun1 isWs r1 with
    | none => none
    | some (_, r2) =>
      match takeRun1 Char.isDigit r2 with
      | none => none
      | some (ds, r3) =>
        match takeRun1 isWs r3 with
        | none => none
        | some (_, r4) =>
          match matchCI ['h', 'o', 'u', 'r'] r4 with
          | none => none
          | some _ => some (digitsToNat ds)

def searchInHours (s : List Char) : Option Nat :=
  searchAux matchInHoursAt (s.length + 1) s

def searchInDays (s : List Char) : Option Nat :=
  searchAux matchInDaysAt (s.length + 1) s

def searchAfterHours (s : List Char) : Option Nat :=
  searchAux matchAfterHoursAt (s.length + 1) s

/-! ### Models of `dateutil.parser.parse` on the captured fragments

`dateutil` is an external library; its behaviour is modelled per fragment
shape (the shape is fixed by the regex that produced the fragment):

* components present in the text are taken literally and validated
  against the calendar (`dateutil` raises on out-of-range values, which
  the code catches and treats as "continue scanning");
* components absent from the text are filled from the default date — the
  current day at midnight — so a year-less fragment gets `now.year`, and
  a date-less time-only fragment gets today's date;
* a leading word that is not a month name is modelled as a parse failure
  (the fuzzy-mode recovery `dateutil` attempts on such fragments is not
  modelled; no claim depends on it). -/

def monthNames : List (String × Nat) :=
  [("january", 1), ("february", 2), ("march", 3), ("april", 4), ("may", 5),
   ("june", 6), ("july", 7), ("august", 8), ("september", 9), ("october", 10),
   ("november", 11), ("december", 12),
   ("jan", 1), ("feb", 2), ("mar", 3), ("apr", 4), ("jun", 6), ("jul", 7),
   ("aug", 8), ("sep", 9), ("sept", 9), ("oct", 10), ("nov", 11), ("dec", 12)]

def monthFromName (w : List Char) : Option Nat :=
  (monthNames.find? fun p => p.1 == (w.map Char.toLower).asString).map (·.2)

/-- Guarded construction shared by the fragment parsers: `dateutil`
validates the calendar ranges of the assembled value. -/
def mkDT (y mo d h mi : Nat) : Option DateTime :=
  let t : DateTime := ⟨y, mo, d, h, mi, 0⟩
  if validDT t then some t else none

/-- Parse of a pattern-1 fragment `YYYY-MM-DD HH:MM` (year, month, day,
hour, minute all explicit in the text). -/
def parseIsoFrag (f : List Char) : Option DateTime :=
  match takeDigitsExact 4 f with
  | none => none
  | some (y, r1) =>
    match r1 with
    | '-' :: r2 =>
      match takeDigitsExact 2 r2 with
      | none => none
      | some (mo, r3) =>
        match r3 with
        | '-' :: r4 =>
          match takeDigitsExact 2 r4 with
          | none => none
          | some (dd, r5) =>
            match takeRun1 isWs r5 with
            | none => none
            | some (_, r6) =>
              (d12Alts r6).findSome? fun alt =>
                match alt.2 with
                | ':' :: r8 =>
                  match takeDigitsExact 2 r8 with
                  | none => none
                  | some (mm, r9) =>
                    match r9 with
                    | [] =>
                      mkDT (digitsToNat y) (digitsToNat mo) (digitsToNat dd)
                        (digitsToNat alt.1) (digitsToNat mm)
                    | _ :: _ => none
                | _ => none
        | _ => none
    | _ => none

/-- Parse of a pattern-2 fragment `Month DD, YYYY at HH:MM` (the `at`
token is skipped by `dateutil`). -/
def parseMonthDayYearAtFrag (f : List Char) : Option DateTime :=
  match takeRun1 isWordC f with
  | none => none
  | some (w, r1) =>
    match monthFromName w with
    | none => none
    | some mo =>
      match takeRun1 isWs r1 with
      | none => none
      | some (_, r2) =>
        (d12Alts r2).findSome? fun alt =>
          match alt.2 with
          | ',' :: r4 =>
            match takeRun1 isWs r4 with
            | none => none
            | some (_, r5) =>
              match takeDigitsExact 4 r5 with
              | none => none
              | some (y, r6) =>
                match takeRun1 isWs r6 with
                | none => none
                | some (_, r7) =>
                  match matchCI ['a', 't'] r7 with
                  | none => none
                  | some r8 =>
                    match takeRun1 isWs r8 with
                    | none => none
                    | some (_, r9) =>
                      (d12Alts r9).findSome? fun alt2 =>
                        match alt2.2 with
                        | ':' :: r11 =>
                          match takeDigitsExact 2 r11 with
                          | none => none
                          | some (mm, r12) =>
                            match r12 with
                            | [] =>
                              mkDT (digitsToNat y) mo (digitsToNat alt.1)
                                (digitsToNat alt2.1) (digitsToNat mm)
                            | _ :: _ => none
                        | _ => none
          | _ => none

/-- Parse of a pattern-3 fragment `DD Mon YYYY, HH:MM`. -/
def parseDayMonthYearFrag (f : List Char) : Option DateTime :=
  (d12Alts f).findSome? fun alt =>
    match takeRun1 isWs alt.2 with
    | none => none
    | some (_, r2) =>
      match takeRun1 isWordC r2 with
      | none => none
      | some (w, r3) =>
        match monthFromName w with
        | none => none
        | some mo =>
          match takeRun1 isWs r3 with
          | none => none
          | some (_, r4) =>
            match takeDigitsExact 4 r4 with
            | none => none
            | some (y, r5) =>
              match r5 with
              | ',' :: r6 =>
                match takeRun1 isWs r6 with
                | none => none
                | some (_, r7) =>
                  (d12Alts r7).findSome? fun alt2 =>
                    match alt2.2 with
                    | ':' :: r9 =>
                      match takeDigitsExact 2 r9 with
                      | none => none
                      | some (mm, r10) =>
                        match r10 with
                        | [] =>
                          mkDT (digitsToNat y) mo (digitsToNat alt.1)
                            (digitsToNat alt2.1) (digitsToNat mm)
                        | _ :: _ => none
                    | _ => none
              | _ => none

/-- Parse of a joined pattern-4 fragment `HH:MM Month DD` — no year in
the text, so `dateutil` fills the year from the default date (today). -/
def parseTimeMonthDayFrag (now : DateTime) (f : List Char) : Option DateTime :=
  (d12Alts f).findSome? fun alt =>
    match alt.2 with
    | ':' :: r2 =>
      match takeDigitsExact 2 r2 with
      | none => none
      | some (mm, r3) =>
        match takeRun1 isWs r3 with
        | none => none
        | some (_, r4) =>
          match takeRun1 isWordC r4 with
          | none => none
          | some (w, r5) =>
            match monthFromName w with
            | none => none
            | some mo =>
              match takeRun1 isWs r5 with
              | none => none
              | some (_, r6) =>
                (d12Alts r6).findSome? fun alt2 =>
                  match alt2.2 with
                  | [] =>
                    mkDT now.year mo (digitsToNat alt2.1)
                      (digitsToNat alt.1) (digitsToNat mm)
                  | _ :: _ => none
    | _ => none

/-- Parse of a pattern-5 fragment `HH:MM` — date missing entirely, filled
from the default date (today). -/
def parseTimeOnlyFrag (now : DateTime) (f : List Char) : Option DateTime :=
  (d12Alts f).findSome? fun alt =>
    match alt.2 with
    | ':' :: r2 =>
      match takeDigitsExact 2 r2 with
      | none => none
      | some (mm, r3) =>
        match r3 with
        | [] => mkDT now.year now.month now.day (digitsToNat alt.1) (digitsToNat mm)
        | _ :: _ => none
    | _ => none

/-! ### `_extract_listing_time` (exchange_monitor.py lines 345-415) -/

/-- The year-resolution step of `_extract_listing_time` (lines 381-387):
if the parse produced the sentinel year 1900 (`dateutil default` per the
code's comment), substitute the current year; if the resulting date is
already in the past, substitute next year instead. -/
def fixYear (now parsed : DateTime) : DateTime :=
  if parsed.year == 1900 then
    let cur := now.year
    let p1 : DateTime := { parsed with year := cur }
    if dtLt p1 now then { parsed with year := cur + 1 } else p1
  else parsed

/-- The inner loop over the matches of one absolute pattern (lines
368-394): parse each captured fragment, apply the year fix, and return
the first value strictly after `now`; parse failures and non-future
values continue to the next match. -/
def tryAbsMatches (now : DateTime) (parse : List Char → Option DateTime) :
    List (List Char) → Option DateTime
  | [] => none
  | f :: fs =>
    match parse f with
    | some p =>
      let p1 := fixYear now p
      if dtLt now p1 then some p1 else tryAbsMatches now parse fs
    | none => tryAbsMatches now parse fs

/-- `ExchangeMonitor._extract_listing_time`: try the five absolute
patterns in order, then the three relative patterns; `now` is the
reference instant of the call (`datetime.now()`). -/
def extractListingTime (now : DateTime) (content : List Char) : Option DateTime :=
  match tryAbsMatches now parseIsoFrag (findAllIsoUtc content) with
  | some t => some t
  | none =>
    match tryAbsMatches now parseMonthDayYearAtFrag (findAllMonthDayYearAt content) with
    | some t => some t
    | none =>
      match tryAbsMatches now parseDayMonthYearFrag (findAllDayMonthYear content) with
      | some t => some t
      | none =>
        match tryAbsMatches now (parseTimeMonthDayFrag now) (findAllTimeOnMonthDay content) with
        | some t => some t
        | none =>
          match tryAbsMatches now (parseTimeOnlyFrag now) (findAllVerbAt content) with
          | some t => some t
          | none =>
            match searchInHours content with
            | some n => some (addSecs now (3600 * n))
            | none =>
              match searchInDays content with
              | some n => some (addSecs now (86400 * n))
              | none =>
                match searchAfterHours content with
                | some n => some (addSecs now (3600 * n))
                | none => none

/-! ### Symbol extraction (`enhanced_exchange_monitor._extract_symbol`,
lines 317-334, and the bare uppercase-run searches of
`exchange_monitor.py`) -/

/-- Exact (case-sensitive) prefix test. -/
def startsWith : List Char → List Char → Bool
  | _, [] => true
  | [], _ :: _ => false
  | c :: cs, p :: ps => c == p && startsWith cs ps

/-- Python `pat in s` substring containment. -/
def containsSub : List Char → List Char → Bool
  | [], pat => pat.isEmpty
  | c :: t, pat => startsWith (c :: t) pat || containsSub t pat

def toLowerL (s : List Char) : List Char := s.map Char.toLower

/-- `re.search(r'\(([A-Z]{2,10})\)', title)`: first parenthesised
uppercase run of length 2-10. -/
def searchParenSymbol : List Char → Option (List Char)
  | [] => none
  | '(' :: t =>
    let (run, rest) := takeRun isUpperAZ t
    if 2 ≤ run.length && run.length ≤ 10 then
      match rest with
      | ')' :: _ => some run
      | _ => searchParenSymbol t
    else searchParenSymbol t
  | _ :: t => searchParenSymbol t

/-- `re.search(r'\b([A-Z]{2,10})\b', title)`: first maximal uppercase run
of length 2-10 delimited by word boundaries (for a run of uppercase
letters, greedy `[A-Z]{2,10}` followed by `\b` succeeds only on the full
run, bounded by a non-word character on each side). -/
def searchBareSymbolAux (prevWord : Bool) : List Char → Option (List Char)
  | [] => none
  | c :: t =>
    if !prevWord then
      let (run, rest) := takeRun isUpperAZ (c :: t)
      if 2 ≤ run.length && run.length ≤ 10 &&
          (match rest with | [] => true | c2 :: _ => !isWordC c2) then
        some run
      else searchBareSymbolAux (isWordC c) t
    else searchBareSymbolAux (isWordC c) t

def searchBareSymbol (s : List Char) : Option (List Char) :=
  searchBareSymbolAux false s

/-- `re.search(r'([A-Z]{2,10})\s+(?:token|coin)', title)`. -/
def searchTokenCoinSymbol : List Char → Option (List Char)
  | [] => none
  | c :: t =>
    let (run, rest) := takeRun isUpperAZ (c :: t)
    if 2 ≤ run.length && run.length ≤ 10 then
      match takeRun1 isWs rest with
      | some (_, r2) =>
        if startsWith r2 ['t', 'o', 'k', 'e', 'n'] || startsWith r2 ['c', 'o', 'i', 'n'] then
          some run
        else searchTokenCoinSymbol t
      | none => searchTokenCoinSymbol t
    else searchTokenCoinSymbol t

/-- The stop list of `_extract_symbol` (line 331). -/
def stoplist : List String :=
  ["USD", "BTC", "ETH", "USDT", "THE", "NEW", "AND", "FOR", "YOU", "ALL"]

def symbolSearchers : List (List Char → Option (List Char)) :=
  [searchParenSymbol, searchBareSymbol, searchTokenCoinSymbol]

def extractSymbolGo : List (List Char → Option (List Char)) → List Char → Option String
  | [], _ => none
  | p :: ps, title =>
    match p title with
    | some s =>
      if stoplist.contains s.asString then extractSymbolGo ps title
      else some s.asString
    | none => extractSymbolGo ps title

/-- `EnhancedExchangeMonitor._extract_symbol`: try the three patterns in
order; a match whose symbol is stop-listed moves on to the next pattern. -/
def extractSymbol (title : List Char) : Option String :=
  extractSymbolGo symbolSearchers title

/-! ### The `Listing` record (`exchange_monitor.Listing`) -/

structure Listing where
  exchange : String
  symbol : String
  listing_time : DateTime
  announcement_url : Option String := none
  status : String := "upcoming"
deriving DecidableEq, Repr

/-- Per-article candidate extraction of `fetch_binance_listings`
(exchange_monitor.py lines 53-75): keyword gate on the lowercased title,
bare uppercase-run symbol search (`\b([A-Z]{2,10})\b` — note: no stop
list here), listing time extracted from `content + ' ' + title`, kept
only when strictly in the future. -/
def binanceCandidateFromArticle (now : DateTime) (title content code : String) :
    Option Listing :=
  if ["will list", "listing", "launches"].any
      (fun k => containsSub (toLowerL title.toList) k.toList) then
    match searchBareSymbol title.toList with
    | some sym =>
      match extractListingTime now (content.toList ++ ' ' :: title.toList) with
      | some t =>
        if dtLt now t then
          some { exchange := "Binance", symbol := sym.asString, listing_time := t,
                 announcement_url :=
                   some ("https://www.binance.com/en/support/announcement/" ++ code),
                 status := "upcoming" }
        else none
      | none => none
    | none => none
  else none

/-! ### `_extract_time_from_mexc_title` / `_extract_time_from_okx_title`
(enhanced_exchange_monitor.py lines 336-380) -/

/-- Exact (case-sensitive) literal consumption. -/
def matchLit : List Char → List Char → Option (List Char)
  | [], s => some s
  | c :: cs, x :: xs => if x == c then matchLit cs xs else none
  | _ :: _, [] => none

/-- MEXC pattern `(\w+\s+\d{1,2},\s+\d{4})`. -/
def matchMexcDate1At (s : List Char) : Option (List Char) :=
  match takeRun1 isWordC s with
  | none => none
  | some (w, r1) =>
    match takeRun1 isWs r1 with
    | none => none
    | some (ws1, r2) =>
      (d12Alts r2).findSome? fun alt =>
        match alt.2 with
        | ',' :: r4 =>
          match takeRun1 isWs r4 with
          | none => none
          | some (ws2, r5) =>
            match takeDigitsExact 4 r5 with
            | none => none
            | some (y, _) => some (w ++ ws1 ++ alt.1 ++ ',' :: ws2 ++ y)
        | _ => none

/-- MEXC pattern `(\d{1,2}/\d{1,2}/\d{4})`. -/
def matchMexcDate2At (s : List Char) : Option (List Char) :=
  (d12Alts s).findSome? fun alt =>
    match alt.2 with
    | '/' :: r2 =>
      (d12Alts r2).findSome? fun alt2 =>
        match alt2.2 with
        | '/' :: r4 =>
          match takeDigitsExact 4 r4 with
          | none => none
          | some (y, _) => some (alt.1 ++ '/' :: alt2.1 ++ '/' :: y)
        | _ => none
    | _ => none

/-- MEXC pattern `(\d{4}-\d{2}-\d{2})`. -/
def matchMexcDate3At (s : List Char) : Option (List Char) :=
  match takeDigitsExact 4 s with
  | none => none
  | some (y, r1) =>
    match r1 with
    | '-' :: r2 =>
      match takeDigitsExact 2 r2 with
      | none => none
      | some (mo, r3) =>
        match r3 with
        | '-' :: r4 =>
          match takeDigitsExact 2 r4 with
          | none => none
          | some (dd, _) => some (y ++ '-' :: mo ++ '-' :: dd)
        | _ => none
    | _ => none

def searchMexcDate1 (s : List Char) : Option (List Char) :=
  searchAux matchMexcDate1At (s.length + 1) s

def searchMexcDate2 (s : List Char) : Option (List Char) :=
  searchAux matchMexcDate2At (s.length + 1) s

def searchMexcDate3 (s : List Char) : Option (List Char) :=
  searchAux matchMexcDate3At (s.length + 1) s

/-- Parse of a `Month DD, YYYY` fragment: date at midnight. -/
def parseMonthDayYearFrag (f : List Char) : Option DateTime :=
  match takeRun1 isWordC f with
  | none => none
  | some (w, r1) =>
    match monthFromName w with
    | none => none
    | some mo =>
      match takeRun1 isWs r1 with
      | none => none
      | some (_, r2) =>
        (d12Alts r2).findSome? fun alt =>
          match alt.2 with
          | ',' :: r4 =>
            match takeRun1 isWs r4 with
            | none => none
            | some (_, r5) =>
              match takeDigitsExact 4 r5 with
              | none => none
              | some (y, r6) =>
                match r6 with
                | [] => mkDT (digitsToNat y) mo (digitsToNat alt.1) 0 0
                | _ :: _ => none
          | _ => none

/-- Parse of an `A/B/YYYY` fragment: `dateutil` reads it month-first and
falls back to day-first when the first number exceeds 12. -/
def parseSlashDateFrag (f : List Char) : Option DateTime :=
  (d12Alts f).findSome? fun alt =>
    match alt.2 with
    | '/' :: r2 =>
      (d12Alts r2).findSome? fun alt2 =>
        match alt2.2 with
        | '/' :: r4 =>
          match takeDigitsExact 4 r4 with
          | none => none
          | some (y, r5) =>
            match r5 with
            | [] =>
              let a := digitsToNat alt.1
              let b := digitsToNat alt2.1
              if a ≤ 12 then mkDT (digitsToNat y) a b 0 0
              else mkDT (digitsToNat y) b a 0 0
            | _ :: _ => none
        | _ => none
    | _ => none

/-- Parse of a `YYYY-MM-DD` fragment: date at midnight. -/
def parseIsoDateFrag (f : List Char) : Option DateTime :=
  match takeDigitsExact 4 f with
  | none => none
  | some (y, r1) =>
    match r1 with
    | '-' :: r2 =>
      match takeDigitsExact 2 r2 with
      | none => none
      | some (mo, r3) =>
        match r3 with
        | '-' :: r4 =>
          match takeDigitsExact 2 r4 with
          | none => none
          | some (dd, r5) =>
            match r5 with
            | [] => mkDT (digitsToNat y) (digitsToNat mo) (digitsToNat dd) 0 0
            | _ :: _ => none
        | _ => none
    | _ => none

/-- First MEXC date pattern whose search and parse both succeed (a match
whose parse fails moves on to the next pattern, as the `except: continue`
does). -/
def mexcFirstParse (title : List Char) : Option DateTime :=
  match (searchMexcDate1 title).bind parseMonthDayYearFrag with
  | some t => some t
  | none =>
    match (searchMexcDate2 title).bind parseSlashDateFrag with
    | some t => some t
    | none => (searchMexcDate3 title).bind parseIsoDateFrag

/-- `_extract_time_from_mexc_title` (lines 336-359): date patterns first
(a midnight result is moved to 10:00), otherwise tomorrow at 10:00. -/
def extractTimeFromMexcTitle (now : DateTime) (title : List Char) : Option DateTime :=
  match mexcFirstParse title with
  | some t => some (if t.hour == 0 && t.minute == 0 then { t with hour := 10 } else t)
  | none => some (addSecs { now with hour := 10, minute := 0, second := 0 } 86400)

/-- OKX pattern `(\w+\s+\d{1,2},\s+\d{4}\s+at\s+\d{1,2}:\d{2})` (the
literal `at` is case-sensitive: the search has no `IGNORECASE`). -/
def matchOkxDate1At (s : List Char) : Option (List Char) :=
  match takeRun1 isWordC s with
  | none => none
  | some (w, r1) =>
    match takeRun1 isWs r1 with
    | none => none
    | some (ws1, r2) =>
      (d12Alts r2).findSome? fun alt =>
        match alt.2 with
        | ',' :: r4 =>
          match takeRun1 isWs r4 with
          | none => none
          | some (ws2, r5) =>
            match takeDigitsExact 4 r5 with
            | none => none
            | some (y, r6) =>
              match takeRun1 isWs r6 with
              | none => none
              | some (ws3, r7) =>
                match matchLit ['a', 't'] r7 with
                | none => none
                | some r8 =>
                  match takeRun1 isWs r8 with
                  | none => none
                  | some (ws4, r9) =>
                    (d12Alts r9).findSome? fun alt2 =>
                      match alt2.2 with
                      | ':' :: r11 =>
                        match takeDigitsExact 2 r11 with
                        | none => none
                        | some (mm, _) =>
                          some (w ++ ws1 ++ alt.1 ++ ',' :: ws2 ++ y ++ ws3 ++
                            'a' :: 't' :: ws4 ++ alt2.1 ++ ':' :: mm)
                      | _ => none
        | _ => none

/-- OKX pattern `(\d{1,2}:\d{2}\s+UTC\s+on\s+\w+\s+\d{1,2})` (literal
`UTC` and `on`, case-sensitive). -/
def matchOkxDate2At (s : List Char) : Option (List Char) :=
  (d12Alts s).findSome? fun alt =>
    match alt.2 with
    | ':' :: r2 =>
      match takeDigitsExact 2 r2 with
      | none => none
      | some (mm, r3) =>
        match takeRun1 isWs r3 with
        | none => none
        | some (ws1, r4) =>
          match matchLit ['U', 'T', 'C'] r4 with
          | none => none
          | some r5 =>
            match takeRun1 isWs r5 with
            | none => none
            | some (ws2, r6) =>
              match matchLit ['o', 'n'] r6 with
              | none => none
              | some r7 =>
                match takeRun1 isWs r7 with
                | none => none
                | some (ws3, r8) =>
                  match takeRun1 isWordC r8 with
                  | none => none
                  | some (w, r9) =>
                    match takeRun1 isWs r9 with
                    | none => none
                    | some (ws4, r10) =>
                      (d12Alts r10).findSome? fun alt2 =>
                        some (alt.1 ++ ':' :: mm ++ ws1 ++ 'U' :: 'T' :: 'C' :: ws2 ++
                          'o' :: 'n' :: ws3 ++ w ++ ws4 ++ alt2.1)
    | _ => none

/-- OKX pattern `(\d{4}-\d{2}-\d{2}\s+\d{1,2}:\d{2})`. -/
def matchOkxDate3At (s : List Char) : Option (List Char) :=
  match takeDigitsExact 4 s with
  | none => none
  | some (y, r1) =>
    match r1 with
    | '-' :: r2 =>
      match takeDigitsExact 2 r2 with
      | none => none
      | some (mo, r3) =>
        match r3 with
        | '-' :: r4 =>
          match takeDigitsExact 2 r4 with
          | none => none
          | some (dd, r5) =>
            match takeRun1 isWs r5 with
            | none => none
            | some (ws, r6) =>
              (d12Alts r6).findSome? fun alt =>
                match alt.2 with
                | ':' :: r8 =>
                  match takeDigitsExact 2 r8 with
                  | none => none
                  | some (mm, _) =>
                    some (y ++ '-' :: mo ++ '-' :: dd ++ ws ++ alt.1 ++ ':' :: mm)
                | _ => none
        | _ => none
    | _ => none

def searchOkxDate1 (s : List Char) : Option (List Char) :=
  searchAux matchOkxDate1At (s.length + 1) s

def searchOkxDate2 (s : List Char) : Option (List Char) :=
  searchAux matchOkxDate2At (s.length + 1) s

def searchOkxDate3 (s : List Char) : Option (List Char) :=
  searchAux matchOkxDate3At (s.length + 1) s

/-- Parse of a `HH:MM UTC on Month DD` fragment: `UTC`/`on` are
timezone/jump tokens for `dateutil`; the year is filled from the default
date (the timezone-awareness of the resulting Python value is not
modelled — no claim depends on this fragment's value). -/
def parseTimeUtcOnMonthDayFrag (now : DateTime) (f : List Char) : Option DateTime :=
  (d12Alts f).findSome? fun alt =>
    match alt.2 with
    | ':' :: r2 =>
      match takeDigitsExact 2 r2 with
      | none => none
      | some (mm, r3) =>
        match takeRun1 isWs r3 with
        | none => none
        | some (_, r4) =>
          match matchLit ['U', 'T', 'C'] r4 with
          | none => none
          | some r5 =>
            match takeRun1 isWs r5 with
            | none => none
            | some (_, r6) =>
              match matchLit ['o', 'n'] r6 with
              | none => none
              | some r7 =>
                match takeRun1 isWs r7 with
                | none => none
                | some (_, r8) =>
                  match takeRun1 isWordC r8 with
                  | none => none
                  | some (w, r9) =>
                    match monthFromName w with
                    | none => none
                    | some mo =>
                      match takeRun1 isWs r9 with
                      | none => none
                      | some (_, r10) =>
                        (d12Alts r10).findSome? fun alt2 =>
                          match alt2.2 with
                          | [] =>
                            mkDT now.year mo (digitsToNat alt2.1)
                              (digitsToNat alt.1) (digitsToNat mm)
                          | _ :: _ => none
    | _ => none

/-- First OKX date pattern whose search and parse both succeed. -/
def okxFirstParse (now : DateTime) (title : List Char) : Option DateTime :=
  match (searchOkxDate1 title).bind parseMonthDayYearAtFrag with
  | some t => some t
  | none =>
    match (searchOkxDate2 title).bind (parseTimeUtcOnMonthDayFrag now) with
    | some t => some t
    | none => (searchOkxDate3 title).bind parseIsoFrag

/-- `_extract_time_from_okx_title` (lines 361-380): date patterns first,
otherwise tomorrow at 12:00. -/
def extractTimeFromOkxTitle (now : DateTime) (title : List Char) : Option DateTime :=
  match okxFirstParse now title with
  | some t => some t
  | none => some (addSecs { now with hour := 12, minute := 0, second := 0 } 86400)

/-! ### Aggregator dedup (`social_monitor.get_all_social_listings`,
lines 474-484) -/

/-- The f-string dedup key `f"{exchange}:{symbol}:{listing_time}"`
(Python `str(datetime)` renders with a space separator). -/
def listingKey (l : Listing) : List Char :=
  l.exchange.toList ++ ':' :: (l.symbol.toList ++ ':' :: fmtDT ' ' l.listing_time)

/-- Deduplication by the exact triple key, preserving first-seen order. -/
def dedupSocial : List Listing → List (List Char) → List Listing
  | [], _ => []
  | l :: ls, seen =>
    if seen.contains (listingKey l) then dedupSocial ls seen
    else l :: dedupSocial ls (listingKey l :: seen)

/-! ### The tracker cycle (`main.check_listings` and helpers) -/

def CHECK_INTERVAL : Nat := 300

def LISTING_ALERT_INTERVAL : Nat := 60

def LISTING_ALERT_COUNT : Nat := 3

/-- Observable actions of one cycle: a "started" notification, a blocking
sleep between repeats, and an "upcoming" threshold notification (tagged
with the threshold whose window fired it). -/
inductive Event where
  | started (l : Listing)
  | slept (secs : Nat)
  | upcomingAlert (l : Listing) (thr : Nat)
deriving DecidableEq, Repr

/-- `send_listing_started_alerts` (main.py lines 128-135): the alert is
sent `LISTING_ALERT_COUNT` times with a `LISTING_ALERT_INTERVAL`-second
blocking sleep between consecutive repeats. -/
def sendListingStartedAlerts (l : Listing) : List Event :=
  ((List.range LISTING_ALERT_COUNT).map fun i =>
    Event.started l ::
      (if i < LISTING_ALERT_COUNT - 1 then [Event.slept LISTING_ALERT_INTERVAL] else [])).flatten

/-- The admission step of `check_listings` (lines 87-103): a candidate is
collected when its status is `upcoming`, its time is strictly in the
future, and no record with the same symbol and exchange (compared with
`==`, i.e. case-sensitively) is already in `self.upcoming_listings` —
which is only extended after the whole batch has been examined. -/
def admitCandidates (now : DateTime) (upcoming batch : List Listing) : List Listing :=
  upcoming ++ batch.filter fun c =>
    c.status == "upcoming" && dtLt now c.listing_time &&
      !(upcoming.any fun l => l.symbol == c.symbol && l.exchange == c.exchange)

/-- The alert-ledger key `f"{exchange}:{symbol}:{alert_time}"` of
`check_upcoming_listings` (line 155). -/
def alertKey (l : Listing) (thr : Nat) : List Char :=
  l.exchange.toList ++ ':' :: (l.symbol.toList ++ ':' :: (Nat.repr thr).toList)

/-- The four pre-listing thresholds (line 151). -/
def alertTimes : List Nat := [3600, 1800, 900, 300]

/-- The threshold loop of `check_upcoming_listings` (lines 153-159): for
each threshold within the ±60 s window whose ledger key has not fired,
emit one upcoming alert and mark the key. -/
def thresholdSweep (now : DateTime) (l : Listing) :
    List Nat → List (List Char) → List (List Char) × List Event
  | [], led => (led, [])
  | thr :: ths, led =>
    if (secsDiff l.listing_time now - thr).natAbs < 60 then
      if led.contains (alertKey l thr) then thresholdSweep now l ths led
      else
        let res := thresholdSweep now l ths (alertKey l thr :: led)
        (res.1, Event.upcomingAlert l thr :: res.2)
    else thresholdSweep now l ths led

/-- `check_upcoming_listings` (lines 137-159): records whose time has
passed get the started-alert sequence and are removed; the rest go
through the threshold loop. -/
def checkUpcomingListings (now : DateTime) :
    List Listing → List (List Char) → List Listing × List (List Char) × List Event
  | [], led => ([], led, [])
  | l :: ls, led =>
    if secsDiff l.listing_time now ≤ 0 then
      let res := checkUpcomingListings now ls led
      (res.1, res.2.1, sendListingStartedAlerts l ++ res.2.2)
    else
      let tres := thresholdSweep now l alertTimes led
      let res := checkUpcomingListings now ls tres.1
      (l :: res.1, res.2.1, tres.2 ++ res.2.2)

/-- One full `check_listings` cycle (lines 78-123) on tracker state
`(upcoming, ledger)` with gathered batch `batch`: admission, expiry sweep
with started alerts, then the upcoming-listings check.  Returns the new
live set, the new alert ledger, and the emitted event trace. -/
def checkListingsCycle (now : DateTime) (upcoming : List Listing)
    (ledger : List (List Char)) (batch : List Listing) :
    List Listing × List (List Char) × List Event :=
  let ups1 := admitCandidates now upcoming batch
  let expired := ups1.filter fun l => dtLe l.listing_time now
  let remaining := ups1.filter fun l => !dtLe l.listing_time now
  let evs1 := (expired.map sendListingStartedAlerts).flatten
  let res := checkUpcomingListings now remaining ledger
  (res.1, res.2.1, evs1 ++ res.2.2)

/-! ### Snapshot persistence (`main.save_data` / `load_data`) -/

/-- One entry of the `upcoming_listings` array of the snapshot file:
the listing fields with the time rendered by `isoformat()`. -/
structure SnapshotItem where
  exchange : String
  symbol : String
  listing_time : String
  announcement_url : Option String
  status : String
deriving DecidableEq, Repr

/-- `save_data` (lines 55-76): serialise every tracked listing. -/
def saveData (ls : List Listing) : List SnapshotItem :=
  ls.map fun l =>
    ⟨l.exchange, l.symbol, (fmtDT 'T' l.listing_time).asString,
      l.announcement_url, l.status⟩

/-- `load_data` (lines 30-53): rebuild listings with
`datetime.fromisoformat`; an entry that fails to parse aborts the loop
(the exception is caught after the already-loaded prefix is kept). -/
def loadData : List SnapshotItem → List Listing
  | [] => []
  | it :: its =>
    match parseFmt 'T' it.listing_time.toList with
    | some t => ⟨it.exchange, it.symbol, t, it.announcement_url, it.status⟩ :: loadData its
    | none => []

/-! ## Claims -/

/-- **C1** (amended): for every text whose first match of the ISO pattern
`YYYY-MM-DD HH:MM` + UTC/GMT marker denotes a valid calendar datetime
that is strictly in the future at the call's reference instant (and with
the reference year at least 1900, the code's sentinel year), the time
extractor returns exactly that datetime.  The original claim, without the
future-ness condition, fails: a past timestamp is skipped (see the
counterexample). -/
theorem extract_time_iso_timestamp (now : DateTime) (content : List Char)
    (frag : List Char) (rest : List (List Char)) (t : DateTime)
    (hfind : findAllIsoUtc content = frag :: rest)
    (hparse : parseIsoFrag frag = some t)
    (hfut : dtLt now t = true)
    (hyear : 1900 ≤ now.year) :
    extractListingTime now content = some t := by
  have hfix : fixYear now t = t := by
    by_cases h19 : t.year = 1900
    · have hny : now.year ≤ 1900 := by
        simp only [dtLt, Bool.or_eq_true, Bool.and_eq_true, decide_eq_true_eq,
          beq_iff_eq] at hfut
        omega
      have hny' : now.year = 1900 := le_antisymm hny hyear
      have heta : { t with year := now.year } = t := by
        cases t
        simp_all
      have hlt : dtLt t now = false := dtLt_asymm hfut
      simp [fixYear, h19, heta, hlt]
    · simp [fixYear, h19]
  simp [extractListingTime, hfind, tryAbsMatches, hparse, hfix, hfut]

/-- **C1** counterexample to the original claim: a text containing an
explicit past ISO timestamp with a UTC marker; the extractor does not
return the denoted datetime (it returns nothing at all). -/
theorem extract_time_iso_timestamp_counterexample :
    findAllIsoUtc "2020-01-01 00:00 UTC".toList = ["2020-01-01 00:00".toList] ∧
    parseIsoFrag "2020-01-01 00:00".toList = some ⟨2020, 1, 1, 0, 0, 0⟩ ∧
    extractListingTime ⟨2025, 1, 1, 0, 0, 0⟩ "2020-01-01 00:00 UTC".toList = none := by
  refine ⟨by decide, by decide, by decide⟩

/-- **C1** witness: a future ISO timestamp is returned exactly. -/
theorem extract_time_iso_timestamp_witness :
    extractListingTime ⟨2025, 1, 1, 0, 0, 0⟩
      "Trading opens 2030-05-01 12:30 UTC today".toList =
      some ⟨2030, 5, 1, 12, 30, 0⟩ :=
  extract_time_iso_timestamp ⟨2025, 1, 1, 0, 0, 0⟩ _
    "2030-05-01 12:30".toList [] ⟨2030, 5, 1, 12, 30, 0⟩
    (by decide) (by decide) (by decide) (by decide)

/-- **C2**: in the time extractor, a parsed date carrying the sentinel
year 1900 is resolved by substituting the current year, or the next year
when the current-year date is already past; either way the resolved value
is not before `now` (the nearest-future resolution). -/
theorem extract_time_sentinel_year_fix (now parsed : DateTime)
    (h : parsed.year = 1900) :
    (dtLt { parsed with year := now.year } now = true →
      fixYear now parsed = { parsed with year := now.year + 1 }) ∧
    (dtLt { parsed with year := now.year } now = false →
      fixYear now parsed = { parsed with year := now.year }) ∧
    dtLe now (fixYear now parsed) = true := by
  refine ⟨fun hlt => by simp [fixYear, h, hlt], fun hlt => by simp [fixYear, h, hlt], ?_⟩
  by_cases hlt : dtLt { parsed with year := now.year } now = true
  · have hgt : dtLt now { parsed with year := now.year + 1 } = true :=
      dtLt_year (by simp)
    simp [fixYear, h, hlt, dtLe, dtLt_asymm hgt]
  · simp only [Bool.not_eq_true] at hlt
    simp [fixYear, h, hlt, dtLe]

/-- **C2** witness: "Dec 15" parsed with sentinel year, seen in June 2025,
resolves to December 15, 2025. -/
theorem extract_time_sentinel_year_fix_witness :
    fixYear ⟨2025, 6, 1, 0, 0, 0⟩ ⟨1900, 12, 15, 14, 0, 0⟩ =
      ⟨2025, 12, 15, 14, 0, 0⟩ :=
  (extract_time_sentinel_year_fix ⟨2025, 6, 1, 0, 0, 0⟩ ⟨1900, 12, 15, 14, 0, 0⟩
    rfl).2.1 (by decide)

/-- **C3**: when no absolute pattern matches anywhere in the text and the
relative pattern `in N hours` matches, the extractor returns `now + N
hours` computed from the call's reference instant. -/
theorem extract_time_relative_hours (now : DateTime) (content : List Char) (n : Nat)
    (h1 : findAllIsoUtc content = [])
    (h2 : findAllMonthDayYearAt content = [])
    (h3 : findAllDayMonthYear content = [])
    (h4 : findAllTimeOnMonthDay content = [])
    (h5 : findAllVerbAt content = [])
    (h6 : searchInHours content = some n) :
    extractListingTime now content = some (addSecs now (3600 * n)) := by
  simp [extractListingTime, h1, h2, h3, h4, h5, h6, tryAbsMatches]

/-- **C3** witness: "listing in 5 hours" at midnight resolves to 05:00 the
same day. -/
theorem extract_time_relative_hours_witness :
    extractListingTime ⟨2025, 1, 1, 0, 0, 0⟩ "listing in 5 hours".toList =
      some ⟨2025, 1, 1, 5, 0, 0⟩ := by
  have h := extract_time_relative_hours ⟨2025, 1, 1, 0, 0, 0⟩
    "listing in 5 hours".toList 5
    (by decide) (by decide) (by decide) (by decide) (by decide) (by decide)
  rw [h]
  decide

theorem extractSymbolGo_stop (ps : List (List Char → Option (List Char))) :
    ∀ (title : List Char) (s : String),
      extractSymbolGo ps title = some s → stoplist.contains s = false := by
  induction ps with
  | nil => intro title s h; simp [extractSymbolGo] at h
  | cons p ps ih =>
    intro title s h
    simp only [extractSymbolGo] at h
    cases hp : p title with
    | none => rw [hp] at h; exact ih title s h
    | some r =>
      rw [hp] at h
      simp only [] at h
      by_cases hc : stoplist.contains r.asString = true
      · rw [if_pos hc] at h; exact ih title s h
      · rw [if_neg hc] at h
        injection h with h
        subst h
        simpa using hc

/-- **C4** (amended): `_extract_symbol` of the enhanced monitor never
returns a stop-listed token — every returned symbol passed the stop-list
guard, whichever pattern matched first.  The original claim extended this
to every candidate produced by every source adapter, which fails: the
adapters of `exchange_monitor.py` search the bare `\b([A-Z]{2,10})\b`
pattern with no stop list (see the counterexample). -/
theorem symbol_extraction_never_stoplisted (title : List Char) (s : String)
    (h : extractSymbol title = some s) : stoplist.contains s = false :=
  extractSymbolGo_stop symbolSearchers title s h

/-- **C4** counterexample to the original claim: `fetch_binance_listings`
builds a candidate whose symbol is the stop-listed token `USD` (the first
bare uppercase run of the title). -/
theorem symbol_extraction_never_stoplisted_counterexample :
    binanceCandidateFromArticle ⟨2025, 1, 1, 0, 0, 0⟩ "Binance Will List USD Coin"
        "trading opens 2099-01-01 00:00 UTC" "c123" =
      some ⟨"Binance", "USD", ⟨2099, 1, 1, 0, 0, 0⟩,
        some "https://www.binance.com/en/support/announcement/c123", "upcoming"⟩ ∧
    stoplist.contains "USD" = true := by
  refine ⟨by decide, by decide⟩

/-- **C4** witness: a title whose only first-pattern match is a genuine
symbol. -/
theorem symbol_extraction_never_stoplisted_witness :
    extractSymbol "MEXC Will List Kadena (KDA) Token".toList = some "KDA" ∧
    stoplist.contains "KDA" = false :=
  ⟨by decide,
    symbol_extraction_never_stoplisted "MEXC Will List Kadena (KDA) Token".toList
      "KDA" (by decide)⟩

/-- **C5** (amended): two candidates with the same (exchange, symbol) but
different listing times both survive the aggregator's dedup by exact
triple; the tracker's admission drops the later candidate only when it is
observed in a cycle after the first was admitted — a same-cycle batch is
checked against the pre-cycle live set only (see the counterexample), so
there the tracker, too, keeps both. -/
theorem dedup_triple_vs_admission (now : DateTime) (l1 l2 : Listing)
    (hex : l1.exchange = l2.exchange) (hsym : l1.symbol = l2.symbol)
    (ht : l1.listing_time ≠ l2.listing_time)
    (hv1 : validDT l1.listing_time = true) (hv2 : validDT l2.listing_time = true)
    (hs1 : l1.status = "upcoming")
    (hf1 : dtLt now l1.listing_time = true) :
    dedupSocial [l1, l2] [] = [l1, l2] ∧
    admitCandidates now [] [l1] = [l1] ∧
    admitCandidates now (admitCandidates now [] [l1]) [l2] = [l1] := by
  have hkey : listingKey l2 ≠ listingKey l1 := by
    intro he
    apply ht
    simp only [listingKey, hex, hsym] at he
    have e1 := List.append_cancel_left he
    rw [List.cons_eq_cons] at e1
    have e2 := List.append_cancel_left e1.2
    rw [List.cons_eq_cons] at e2
    exact (fmtDT_inj ' ' hv2 hv1 e2.2).symm
  refine ⟨?_, ?_, ?_⟩
  · simp [dedupSocial, hkey]
  · simp [admitCandidates, hs1, hf1]
  · simp [admitCandidates, hs1, hf1, hsym, hex]

/-- **C5** counterexample to the original claim: with both candidates in
the same gathered batch (exactly the situation the dedup-by-triple output
produces), the admission step of `check_listings` admits both — the check
runs against `self.upcoming_listings`, which is extended only after the
loop — so the tracker does not keep only the first. -/
theorem dedup_triple_vs_admission_counterexample :
    dedupSocial
        [⟨"Binance", "ABC", ⟨2025, 7, 1, 10, 0, 0⟩, none, "upcoming"⟩,
         ⟨"Binance", "ABC", ⟨2025, 7, 2, 11, 0, 0⟩, none, "upcoming"⟩] [] =
      [⟨"Binance", "ABC", ⟨2025, 7, 1, 10, 0, 0⟩, none, "upcoming"⟩,
       ⟨"Binance", "ABC", ⟨2025, 7, 2, 11, 0, 0⟩, none, "upcoming"⟩] ∧
    admitCandidates ⟨2025, 6, 1, 0, 0, 0⟩ []
        [⟨"Binance", "ABC", ⟨2025, 7, 1, 10, 0, 0⟩, none, "upcoming"⟩,
         ⟨"Binance", "ABC", ⟨2025, 7, 2, 11, 0, 0⟩, none, "upcoming"⟩] =
      [⟨"Binance", "ABC", ⟨2025, 7, 1, 10, 0, 0⟩, none, "upcoming"⟩,
       ⟨"Binance", "ABC", ⟨2025, 7, 2, 11, 0, 0⟩, none, "upcoming"⟩] := by
  refine ⟨by decide, by decide⟩

/-- **C5** witness: across two cycles the admission does keep only the
first record for the identity. -/
theorem dedup_triple_vs_admission_witness :
    dedupSocial
        [⟨"Binance", "ABC", ⟨2025, 7, 1, 10, 0, 0⟩, none, "upcoming"⟩,
         ⟨"Binance", "ABC", ⟨2025, 7, 2, 11, 0, 0⟩, none, "upcoming"⟩] [] =
      [⟨"Binance", "ABC", ⟨2025, 7, 1, 10, 0, 0⟩, none, "upcoming"⟩,
       ⟨"Binance", "ABC", ⟨2025, 7, 2, 11, 0, 0⟩, none, "upcoming"⟩] ∧
    admitCandidates ⟨2025, 6, 1, 0, 0, 0⟩ []
        [⟨"Binance", "ABC", ⟨2025, 7, 1, 10, 0, 0⟩, none, "upcoming"⟩] =
      [⟨"Binance", "ABC", ⟨2025, 7, 1, 10, 0, 0⟩, none, "upcoming"⟩] ∧
    admitCandidates ⟨2025, 6, 1, 0, 0, 0⟩
        (admitCandidates ⟨2025, 6, 1, 0, 0, 0⟩ []
          [⟨"Binance", "ABC", ⟨2025, 7, 1, 10, 0, 0⟩, none, "upcoming"⟩])
        [⟨"Binance", "ABC", ⟨2025, 7, 2, 11, 0, 0⟩, none, "upcoming"⟩] =
      [⟨"Binance", "ABC", ⟨2025, 7, 1, 10, 0, 0⟩, none, "upcoming"⟩] :=
  dedup_triple_vs_admission ⟨2025, 6, 1, 0, 0, 0⟩
    ⟨"Binance", "ABC", ⟨2025, 7, 1, 10, 0, 0⟩, none, "upcoming"⟩
    ⟨"Binance", "ABC", ⟨2025, 7, 2, 11, 0, 0⟩, none, "upcoming"⟩
    rfl rfl (by decide) (by decide) (by decide) rfl (by decide)

/-- **C6** (amended): the admission check compares exchange and symbol
with `==` (case-sensitively) against the live set as of the start of the
cycle: a candidate matching a record already tracked at cycle start is
dropped, and the tracked records pass through the admission step
unchanged (first-seen `listing_time` wins).  The original claim's
case-insensitive comparison and its at-most-one-per-key invariant both
fail on the code (see the counterexample). -/
theorem tracker_admission_drops_known (now : DateTime) (ups batch : List Listing)
    (c l : Listing) (hl : l ∈ ups)
    (hsym : l.symbol = c.symbol) (hex : l.exchange = c.exchange) :
    ∃ rest, admitCandidates now ups batch = ups ++ rest ∧ c ∉ rest := by
  refine ⟨_, rfl, ?_⟩
  intro hc
  have hcond := List.of_mem_filter hc
  simp only [Bool.and_eq_true, Bool.not_eq_true'] at hcond
  have hany : (ups.any fun x => x.symbol == c.symbol && x.exchange == c.exchange) = true := by
    rw [List.any_eq_true]
    exact ⟨l, hl, by simp [hsym, hex]⟩
  rw [hcond.2] at hany
  exact Bool.false_ne_true hany

/-- **C6** counterexample to the original claim: a candidate whose
exchange differs from a tracked record's only in case is admitted (the
comparison is not case-insensitive), and two same-key candidates arriving
in one batch are both admitted, so the live set holds two tracked records
for one identity key. -/
theorem tracker_admission_drops_known_counterexample :
    admitCandidates ⟨2025, 6, 1, 0, 0, 0⟩
        [⟨"Binance", "AAA", ⟨2025, 7, 1, 10, 0, 0⟩, none, "upcoming"⟩]
        [⟨"BINANCE", "AAA", ⟨2025, 7, 2, 11, 0, 0⟩, none, "upcoming"⟩] =
      [⟨"Binance", "AAA", ⟨2025, 7, 1, 10, 0, 0⟩, none, "upcoming"⟩,
       ⟨"BINANCE", "AAA", ⟨2025, 7, 2, 11, 0, 0⟩, none, "upcoming"⟩] ∧
    toLowerL "BINANCE".toList = toLowerL "Binance".toList ∧
    admitCandidates ⟨2025, 6, 1, 0, 0, 0⟩ []
        [⟨"Binance", "AAA", ⟨2025, 7, 1, 10, 0, 0⟩, none, "upcoming"⟩,
         ⟨"Binance", "AAA", ⟨2025, 7, 2, 11, 0, 0⟩, none, "upcoming"⟩] =
      [⟨"Binance", "AAA", ⟨2025, 7, 1, 10, 0, 0⟩, none, "upcoming"⟩,
       ⟨"Binance", "AAA", ⟨2025, 7, 2, 11, 0, 0⟩, none, "upcoming"⟩] := by
  refine ⟨by decide, by decide, by decide⟩

/-- **C6** witness: an exact-case duplicate candidate is dropped and the
tracked record survives unchanged. -/
theorem tracker_admission_drops_known_witness :
    ∃ rest,
      admitCandidates ⟨2025, 6, 1, 0, 0, 0⟩
          [⟨"Binance", "AAA", ⟨2025, 7, 1, 10, 0, 0⟩, none, "upcoming"⟩]
          [⟨"Binance", "AAA", ⟨2025, 7, 2, 11, 0, 0⟩, none, "upcoming"⟩] =
        [⟨"Binance", "AAA", ⟨2025, 7, 1, 10, 0, 0⟩, none, "upcoming"⟩] ++ rest ∧
      (⟨"Binance", "AAA", ⟨2025, 7, 2, 11, 0, 0⟩, none, "upcoming"⟩ : Listing) ∉ rest :=
  tracker_admission_drops_known ⟨2025, 6, 1, 0, 0, 0⟩ _ _ _
    ⟨"Binance", "AAA", ⟨2025, 7, 1, 10, 0, 0⟩, none, "upcoming"⟩
    (by simp) rfl rfl

/-- **C9**: serialising the tracked set to the snapshot and reloading it
restores every record field-for-field (exchange, symbol, time to the
second, url, status), for any set of listings with valid times. -/
theorem snapshot_roundtrip (ls : List Listing)
    (hv : ∀ l ∈ ls, validDT l.listing_time = true) :
    loadData (saveData ls) = ls := by
  induction ls with
  | nil => rfl
  | cons l ls ih =>
    have hvl : validDT l.listing_time = true := hv l (by simp)
    have hrest : loadData (saveData ls) = ls := ih fun x hx => hv x (by simp [hx])
    have hasml : ((fmtDT 'T' l.listing_time).asString).toList = fmtDT 'T' l.listing_time := rfl
    simp only [saveData, List.map_cons, loadData, hasml, parseFmt_fmtDT 'T' hvl,
      List.cons_eq_cons]
    exact ⟨trivial, by simpa [saveData] using hrest⟩

/-- **C9** witness: a concrete two-record round trip. -/
theorem snapshot_roundtrip_witness :
    loadData (saveData
      [⟨"Binance", "ABC", ⟨2025, 7, 1, 10, 0, 0⟩, some "https://x", "upcoming"⟩,
       ⟨"OKX", "DEF", ⟨2026, 2, 28, 23, 59, 59⟩, none, "upcoming"⟩]) =
      [⟨"Binance", "ABC", ⟨2025, 7, 1, 10, 0, 0⟩, some "https://x", "upcoming"⟩,
       ⟨"OKX", "DEF", ⟨2026, 2, 28, 23, 59, 59⟩, none, "upcoming"⟩] :=
  snapshot_roundtrip _ (by decide)

/-- **C10** (implicit): the MEXC and OKX title-time extractors never
return `none`: when no date pattern matches they fall back to tomorrow at
10:00 (MEXC) and tomorrow at 12:00 (OKX) relative to the call's reference
instant, so the no-match branch of the time-extractor contract is
unreachable in these helpers. -/
theorem mexc_okx_title_time_fallback (now : DateTime) (tm tok : List Char)
    (hm1 : searchMexcDate1 tm = none) (hm2 : searchMexcDate2 tm = none)
    (hm3 : searchMexcDate3 tm = none)
    (ho1 : searchOkxDate1 tok = none) (ho2 : searchOkxDate2 tok = none)
    (ho3 : searchOkxDate3 tok = none) :
    extractTimeFromMexcTitle now tm =
      some (addSecs { now with hour := 10, minute := 0, second := 0 } 86400) ∧
    extractTimeFromOkxTitle now tok =
      some (addSecs { now with hour := 12, minute := 0, second := 0 } 86400) ∧
    (∀ s, (extractTimeFromMexcTitle now s).isSome = true ∧
      (extractTimeFromOkxTitle now s).isSome = true) := by
  refine ⟨?_, ?_, ?_⟩
  · simp [extractTimeFromMexcTitle, mexcFirstParse, hm1, hm2, hm3]
  · simp [extractTimeFromOkxTitle, okxFirstParse, ho1, ho2, ho3]
  · intro s
    constructor
    · unfold extractTimeFromMexcTitle
      cases mexcFirstParse s <;> simp
    · unfold extractTimeFromOkxTitle
      cases okxFirstParse now s <;> simp

/-- **C10** witness: a dateless title resolves to the fixed fallbacks. -/
theorem mexc_okx_title_time_fallback_witness :
    extractTimeFromMexcTitle ⟨2025, 6, 1, 8, 30, 0⟩ "New listing soon".toList =
      some ⟨2025, 6, 2, 10, 0, 0⟩ ∧
    extractTimeFromOkxTitle ⟨2025, 6, 1, 8, 30, 0⟩ "New listing soon".toList =
      some ⟨2025, 6, 2, 12, 0, 0⟩ := by
  have h := mexc_okx_title_time_fallback ⟨2025, 6, 1, 8, 30, 0⟩
    "New listing soon".toList "New listing soon".toList
    (by decide) (by decide) (by decide) (by decide) (by decide) (by decide)
  exact ⟨by rw [h.1]; decide, by rw [h.2.1]; decide⟩

/-! ### Lemmas about the threshold sweep and the upcoming-listings check -/

/-- Number of "upcoming" alert events in a trace carrying a given ledger
key. -/
def alertKeyCount (k : List Char) (evs : List Event) : Nat :=
  evs.countP fun e =>
    match e with
    | Event.upcomingAlert m thr => alertKey m thr == k
    | _ => false

/-- Number of "started" alert events in a trace for a given listing. -/
def startedCount (l : Listing) (evs : List Event) : Nat :=
  evs.countP fun e =>
    match e with
    | Event.started m => m == l
    | _ => false

theorem sendListingStartedAlerts_eq (m : Listing) :
    sendListingStartedAlerts m =
      [Event.started m, Event.slept 60, Event.started m, Event.slept 60,
        Event.started m] := rfl

theorem alertKeyCount_send (k : List Char) (m : Listing) :
    alertKeyCount k (sendListingStartedAlerts m) = 0 := rfl

theorem startedCount_send (l m : Listing) :
    startedCount l (sendListingStartedAlerts m) = if m = l then 3 else 0 := by
  by_cases h : m = l <;>
    simp [startedCount, sendListingStartedAlerts_eq, List.countP_cons, h]

theorem alertKeyCount_append (k : List Char) (a b : List Event) :
    alertKeyCount k (a ++ b) = alertKeyCount k a + alertKeyCount k b :=
  List.countP_append _ _ _

theorem startedCount_append (l : Listing) (a b : List Event) :
    startedCount l (a ++ b) = startedCount l a + startedCount l b :=
  List.countP_append _ _ _

theorem thresholdSweep_ledger_mono (now : DateTime) (l : Listing) :
    ∀ (ths : List Nat) (led : List (List Char)),
      led ⊆ (thresholdSweep now l ths led).1 := by
  intro ths
  induction ths with
  | nil => intro led; simp [thresholdSweep]
  | cons thr ths ih =>
    intro led
    simp only [thresholdSweep]
    split
    · split
      · exact ih led
      · exact fun k hk => ih (alertKey l thr :: led) (List.mem_cons_of_mem _ hk)
    · exact ih led

theorem thresholdSweep_event_sound (now : DateTime) (l : Listing) :
    ∀ (ths : List Nat) (led : List (List Char)) (e : Event),
      e ∈ (thresholdSweep now l ths led).2 →
      ∃ thr, e = Event.upcomingAlert l thr ∧ thr ∈ ths ∧
        (secsDiff l.listing_time now - thr).natAbs < 60 ∧
        alertKey l thr ∉ led ∧ alertKey l thr ∈ (thresholdSweep now l ths led).1 := by
  intro ths
  induction ths with
  | nil => intro led e he; simp [thresholdSweep] at he
  | cons thr ths ih =>
    intro led e he
    simp only [thresholdSweep] at he ⊢
    split at he
    · rename_i hwin
      split at he
      · rename_i hcon
        obtain ⟨thr', h1, h2, h3, h4, h5⟩ := ih led e he
        refine ⟨thr', h1, List.mem_cons_of_mem _ h2, h3, h4, ?_⟩
        simp only [hwin, if_pos, hcon, if_true]
        exact h5
      · rename_i hcon
        rcases List.mem_cons.mp he with he | he
        · refine ⟨thr, he, List.mem_cons_self _ _, hwin, ?_, ?_⟩
          · simpa using hcon
          · simp only [hwin, if_pos, hcon, if_false]
            exact thresholdSweep_ledger_mono now l ths (alertKey l thr :: led)
              (List.mem_cons_self _ _)
        · obtain ⟨thr', h1, h2, h3, h4, h5⟩ := ih (alertKey l thr :: led) e he
          refine ⟨thr', h1, List.mem_cons_of_mem _ h2, h3,
            fun hk => h4 (List.mem_cons_of_mem _ hk), ?_⟩
          simp only [hwin, if_pos, hcon, if_false]
          exact h5
    · rename_i hwin
      obtain ⟨thr', h1, h2, h3, h4, h5⟩ := ih led e he
      refine ⟨thr', h1, List.mem_cons_of_mem _ h2, h3, h4, ?_⟩
      simp only [hwin, if_neg, if_false]
      exact h5

theorem thresholdSweep_no_refire (now : DateTime) (l : Listing) :
    ∀ (ths : List Nat) (led : List (List Char)) (k : List Char), k ∈ led →
      alertKeyCount k (thresholdSweep now l ths led).2 = 0 := by
  intro ths
  induction ths with
  | nil => intro led k _; simp [thresholdSweep, alertKeyCount]
  | cons thr ths ih =>
    intro led k hk
    simp only [thresholdSweep]
    split
    · split
      · exact ih led k hk
      · rename_i hcon
        have hne : (alertKey l thr == k) = false := by
          rw [beq_eq_false_iff_ne]
          intro he
          rw [he] at hcon
          exact (by simpa using hcon : k ∉ led) hk
        simp only [alertKeyCount, List.countP_cons]
        have := ih (alertKey l thr :: led) k (List.mem_cons_of_mem _ hk)
        simp only [alertKeyCount] at this
        simp [this, hne]
    · exact ih led k hk

theorem thresholdSweep_atMostOnce (now : DateTime) (l : Listing) :
    ∀ (ths : List Nat) (led : List (List Char)) (k : List Char),
      alertKeyCount k (thresholdSweep now l ths led).2 ≤ 1 := by
  intro ths
  induction ths with
  | nil => intro led k; simp [thresholdSweep, alertKeyCount]
  | cons thr ths ih =>
    intro led k
    simp only [thresholdSweep]
    split
    · split
      · exact ih led k
      · by_cases hke : alertKey l thr = k
        · subst hke
          have h0 := thresholdSweep_no_refire now l ths (alertKey l thr :: led) _
            (List.mem_cons_self _ _)
          simp only [alertKeyCount, List.countP_cons] at h0 ⊢
          simp [h0]
        · have hne : (alertKey l thr == k) = false := by
            rw [beq_eq_false_iff_ne]; exact hke
          have := ih (alertKey l thr :: led) k
          simp only [alertKeyCount, List.countP_cons] at this ⊢
          simp only [hne, if_false]
          simpa using this
    · exact ih led k

theorem checkUpcoming_ledger_mono (now : DateTime) :
    ∀ (ls : List Listing) (led : List (List Char)),
      led ⊆ (checkUpcomingListings now ls led).2.1 := by
  intro ls
  induction ls with
  | nil => intro led; simp [checkUpcomingListings]
  | cons l ls ih =>
    intro led
    simp only [checkUpcomingListings]
    split
    · exact ih led
    · exact fun k hk => ih _ (thresholdSweep_ledger_mono now l alertTimes led hk)

theorem checkUpcoming_output_subset (now : DateTime) :
    ∀ (ls : List Listing) (led : List (List Char)),
      (checkUpcomingListings now ls led).1 ⊆ ls := by
  intro ls
  induction ls with
  | nil => intro led; simp [checkUpcomingListings]
  | cons l ls ih =>
    intro led
    simp only [checkUpcomingListings]
    split
    · exact fun x hx => List.mem_cons_of_mem _ (ih led hx)
    · intro x hx
      rcases List.mem_cons.mp hx with hx | hx
      · exact hx ▸ List.mem_cons_self _ _
      · exact List.mem_cons_of_mem _ (ih _ hx)

theorem checkUpcoming_no_refire (now : DateTime) :
    ∀ (ls : List Listing) (led : List (List Char)) (k : List Char), k ∈ led →
      alertKeyCount k (checkUpcomingListings now ls led).2.2 = 0 := by
  intro ls
  induction ls with
  | nil => intro led k _; simp [checkUpcomingListings, alertKeyCount]
  | cons l ls ih =>
    intro led k hk
    simp only [checkUpcomingListings]
    split
    · rw [alertKeyCount_append, alertKeyCount_send, ih led k hk]
    · rw [alertKeyCount_append, thresholdSweep_no_refire now l alertTimes led k hk,
        ih _ k (thresholdSweep_ledger_mono now l alertTimes led hk)]

theorem checkUpcoming_alert_atMostOnce (now : DateTime) :
    ∀ (ls : List Listing) (led : List (List Char)) (k : List Char),
      alertKeyCount k (checkUpcomingListings now ls led).2.2 ≤ 1 := by
  intro ls
  induction ls with
  | nil => intro led k; simp [checkUpcomingListings, alertKeyCount]
  | cons l ls ih =>
    intro led k
    simp only [checkUpcomingListings]
    split
    · rw [alertKeyCount_append, alertKeyCount_send]
      simpa using ih led k
    · rw [alertKeyCount_append]
      rcases Nat.eq_zero_or_pos
          (alertKeyCount k (thresholdSweep now l alertTimes led).2) with h0 | hpos
      · rw [h0]
        simpa using ih _ k
      · have hmem : ∃ e ∈ (thresholdSweep now l alertTimes led).2,
            (match e with
              | Event.upcomingAlert m thr => alertKey m thr == k
              | _ => false) = true := by
          rw [← List.countP_pos_iff]
          exact hpos
        obtain ⟨e, he, hpe⟩ := hmem
        obtain ⟨thr, he1, _, _, _, hkl⟩ :=
          thresholdSweep_event_sound now l alertTimes led e he
        subst he1
        have hkk : alertKey l thr = k := by simpa using hpe
        have h2 : alertKeyCount k (checkUpcomingListings now ls
            (thresholdSweep now l alertTimes led).1).2.2 = 0 :=
          checkUpcoming_no_refire now ls _ k (hkk ▸ hkl)
        rw [h2]
        have h1 := thresholdSweep_atMostOnce now l alertTimes led k
        omega

theorem checkUpcoming_alert_sound (now : DateTime) :
    ∀ (ls : List Listing) (led : List (List Char)) (m : Listing) (thr : Nat),
      Event.upcomingAlert m thr ∈ (checkUpcomingListings now ls led).2.2 →
      thr ∈ alertTimes ∧
      (secsDiff m.listing_time now - thr).natAbs < 60 ∧
      alertKey m thr ∉ led ∧
      alertKey m thr ∈ (checkUpcomingListings now ls led).2.1 := by
  intro ls
  induction ls with
  | nil => intro led m thr h; simp [checkUpcomingListings] at h
  | cons l ls ih =>
    intro led m thr h
    simp only [checkUpcomingListings] at h ⊢
    split at h
    · rename_i hexp
      rw [List.mem_append] at h
      rcases h with h | h
      · rw [sendListingStartedAlerts_eq] at h
        simp at h
      · have := ih led m thr h
        simpa [hexp] using this
    · rename_i hexp
      rw [List.mem_append] at h
      rcases h with h | h
      · obtain ⟨thr', he, hthr, hwin, hled, hkey⟩ :=
          thresholdSweep_event_sound now l alertTimes led _ h
        obtain ⟨hm, ht⟩ : m = l ∧ thr' = thr := by
          cases he
          exact ⟨rfl, rfl⟩
        subst hm; subst ht
        refine ⟨hthr, hwin, hled, ?_⟩
        simp only [hexp, if_neg, if_false]
        exact checkUpcoming_ledger_mono now ls _ hkey
      · have := ih _ m thr h
        refine ⟨this.1, this.2.1, fun hl => this.2.2.1
          (thresholdSweep_ledger_mono now l alertTimes led hl), ?_⟩
        simp only [hexp, if_neg, if_false]
        exact this.2.2.2

theorem checkUpcoming_started_mem (now : DateTime) :
    ∀ (ls : List Listing) (led : List (List Char)) (m : Listing),
      Event.started m ∈ (checkUpcomingListings now ls led).2.2 → m ∈ ls := by
  intro ls
  induction ls with
  | nil => intro led m h; simp [checkUpcomingListings] at h
  | cons l ls ih =>
    intro led m h
    simp only [checkUpcomingListings] at h
    split at h
    · rw [List.mem_append] at h
      rcases h with h | h
      · rw [sendListingStartedAlerts_eq] at h
        have hm : m = l := by simpa using h
        exact hm ▸ List.mem_cons_self _ _
      · exact List.mem_cons_of_mem _ (ih led m h)
    · rw [List.mem_append] at h
      rcases h with h | h
      · obtain ⟨thr', he, _⟩ := thresholdSweep_event_sound now l alertTimes led _ h
        cases he
      · exact List.mem_cons_of_mem _ (ih _ m h)

theorem count_filter_of_pos {α : Type} [BEq α] [LawfulBEq α] (p : α → Bool) (a : α)
    (hp : p a = true) : ∀ xs : List α, (xs.filter p).count a = xs.count a := by
  intro xs
  induction xs with
  | nil => rfl
  | cons x xs ih =>
    rw [List.filter_cons]
    by_cases hpx : p x = true
    · simp [hpx, List.count_cons, ih]
    · have hax : ¬x = a := fun e => hpx (by rw [e]; exact hp)
      have hxa : (a == x) = false := by
        rw [beq_eq_false_iff_ne]
        exact fun e => hax e.symm
      simp [hpx, List.count_cons, ih, hxa, hax]

theorem startedCount_flatten (l : Listing) :
    ∀ xs : List Listing,
      startedCount l ((xs.map sendListingStartedAlerts).flatten) = 3 * xs.count l := by
  intro xs
  induction xs with
  | nil => simp [startedCount]
  | cons x xs ih =>
    simp only [List.map_cons, List.flatten_cons]
    rw [startedCount_append, startedCount_send, ih, List.count_cons]
    by_cases h : x = l
    · simp [h]
      omega
    · have : (l == x) = false := by
        rw [beq_eq_false_iff_ne]
        exact fun e => h e.symm
      simp [h, this]

/-- **C7**: a tracked record whose listing time is not after `now` at the
start of the cycle's expiry sweep (for instance exactly one second in the
past) is removed from the live set during the cycle and receives exactly
`LISTING_ALERT_COUNT = 3` "started" alert events, consecutive in the
trace and separated by 60-second sleeps; it never remains in the
upcoming set (the `ups.count l = 1` hypothesis says the record occurs
once in the live set, so the three events are all of its events). -/
theorem expiry_sweep_started_alerts (now : DateTime) (ups batch : List Listing)
    (led : List (List Char)) (l : Listing)
    (hmem : l ∈ ups) (hcount : ups.count l = 1)
    (hexp : dtLe l.listing_time now = true) :
    sendListingStartedAlerts l =
      [Event.started l, Event.slept 60, Event.started l, Event.slept 60,
        Event.started l] ∧
    l ∉ (checkListingsCycle now ups led batch).1 ∧
    (∃ pre post, (checkListingsCycle now ups led batch).2.2 =
      pre ++ sendListingStartedAlerts l ++ post) ∧
    startedCount l (checkListingsCycle now ups led batch).2.2 = 3 := by
  have hnlt : dtLt now l.listing_time = false := by
    simpa [dtLe] using hexp
  have hladd : l ∉ batch.filter fun c =>
      c.status == "upcoming" && dtLt now c.listing_time &&
        !(ups.any fun x => x.symbol == c.symbol && x.exchange == c.exchange) := by
    intro hc
    have := List.of_mem_filter hc
    simp only [Bool.and_eq_true] at this
    rw [hnlt] at this
    exact Bool.false_ne_true this.1.2
  have hcount1 : (admitCandidates now ups batch).count l = 1 := by
    rw [admitCandidates, List.count_append, hcount, List.count_eq_zero.mpr hladd]
  have hmem1 : l ∈ admitCandidates now ups batch :=
    List.mem_append_left _ hmem
  have hmexp : l ∈ (admitCandidates now ups batch).filter
      (fun x => dtLe x.listing_time now) :=
    List.mem_filter.mpr ⟨hmem1, hexp⟩
  have hnrem : l ∉ (admitCandidates now ups batch).filter
      (fun x => !dtLe x.listing_time now) := by
    intro hr
    have h2 := (List.mem_filter.mp hr).2
    rw [hexp] at h2
    simp at h2
  have hcexp : ((admitCandidates now ups batch).filter
      (fun x => dtLe x.listing_time now)).count l = 1 := by
    rw [count_filter_of_pos (fun x => dtLe x.listing_time now) l hexp, hcount1]
  refine ⟨rfl, ?_, ?_, ?_⟩
  · intro hin
    exact hnrem (checkUpcoming_output_subset now _ led hin)
  · obtain ⟨a, b, hab⟩ := List.append_of_mem hmexp
    refine ⟨(a.map sendListingStartedAlerts).flatten,
      (b.map sendListingStartedAlerts).flatten ++
        (checkUpcomingListings now ((admitCandidates now ups batch).filter
          (fun x => !dtLe x.listing_time now)) led).2.2, ?_⟩
    simp only [checkListingsCycle, hab, List.map_append, List.map_cons,
      List.flatten_append, List.flatten_cons, List.append_assoc]
  · simp only [checkListingsCycle]
    rw [startedCount_append, startedCount_flatten, hcexp]
    have hevs2 : startedCount l (checkUpcomingListings now
        ((admitCandidates now ups batch).filter
          (fun x => !dtLe x.listing_time now)) led).2.2 = 0 := by
      apply List.countP_eq_zero.mpr
      intro e he
      cases e with
      | started m =>
        intro hp
        have hm : m = l := by simpa using hp
        subst hm
        exact hnrem (checkUpcoming_started_mem now _ led m he)
      | slept s => simp
      | upcomingAlert m thr => simp
    rw [hevs2]

/-- **C7** witness: a record one second past due is swept, removed, and
gets its three spaced started alerts. -/
theorem expiry_sweep_started_alerts_witness :
    sendListingStartedAlerts ⟨"Binance", "ABC", ⟨2025, 7, 1, 10, 0, 0⟩, none, "upcoming"⟩ =
      [Event.started ⟨"Binance", "ABC", ⟨2025, 7, 1, 10, 0, 0⟩, none, "upcoming"⟩,
       Event.slept 60,
       Event.started ⟨"Binance", "ABC", ⟨2025, 7, 1, 10, 0, 0⟩, none, "upcoming"⟩,
       Event.slept 60,
       Event.started ⟨"Binance", "ABC", ⟨2025, 7, 1, 10, 0, 0⟩, none, "upcoming"⟩] ∧
    (⟨"Binance", "ABC", ⟨2025, 7, 1, 10, 0, 0⟩, none, "upcoming"⟩ : Listing) ∉
      (checkListingsCycle ⟨2025, 7, 1, 10, 0, 1⟩
        [⟨"Binance", "ABC", ⟨2025, 7, 1, 10, 0, 0⟩, none, "upcoming"⟩] [] []).1 ∧
    (∃ pre post,
      (checkListingsCycle ⟨2025, 7, 1, 10, 0, 1⟩
        [⟨"Binance", "ABC", ⟨2025, 7, 1, 10, 0, 0⟩, none, "upcoming"⟩] [] []).2.2 =
      pre ++ sendListingStartedAlerts
        ⟨"Binance", "ABC", ⟨2025, 7, 1, 10, 0, 0⟩, none, "upcoming"⟩ ++ post) ∧
    startedCount ⟨"Binance", "ABC", ⟨2025, 7, 1, 10, 0, 0⟩, none, "upcoming"⟩
      (checkListingsCycle ⟨2025, 7, 1, 10, 0, 1⟩
        [⟨"Binance", "ABC", ⟨2025, 7, 1, 10, 0, 0⟩, none, "upcoming"⟩] [] []).2.2 = 3 :=
  expiry_sweep_started_alerts ⟨2025, 7, 1, 10, 0, 1⟩
    [⟨"Binance", "ABC", ⟨2025, 7, 1, 10, 0, 0⟩, none, "upcoming"⟩] [] []
    ⟨"Binance", "ABC", ⟨2025, 7, 1, 10, 0, 0⟩, none, "upcoming"⟩
    (List.mem_cons_self _ _) (by decide) (by decide)

/-- **C8**: an "upcoming" alert for a (listing, threshold) pair is
emitted only for a configured threshold with `|seconds_left - threshold|
< 60` and a ledger key that has not fired, after which the key is in the
ledger; a key already in the ledger never fires (and since the ledger
only grows, a fired pair never fires in any later cycle either); within
one cycle a key fires at most once. -/
theorem threshold_alert_once (now : DateTime) (ups : List Listing)
    (led : List (List Char)) (l : Listing) (thr : Nat) :
    (Event.upcomingAlert l thr ∈ (checkUpcomingListings now ups led).2.2 →
      thr ∈ alertTimes ∧
      (secsDiff l.listing_time now - thr).natAbs < 60 ∧
      alertKey l thr ∉ led ∧
      alertKey l thr ∈ (checkUpcomingListings now ups led).2.1) ∧
    (alertKey l thr ∈ led →
      alertKeyCount (alertKey l thr) (checkUpcomingListings now ups led).2.2 = 0) ∧
    alertKeyCount (alertKey l thr) (checkUpcomingListings now ups led).2.2 ≤ 1 ∧
    led ⊆ (checkUpcomingListings now ups led).2.1 :=
  ⟨checkUpcoming_alert_sound now ups led l thr,
    checkUpcoming_no_refire now ups led _,
    checkUpcoming_alert_atMostOnce now ups led _,
    checkUpcoming_ledger_mono now ups led⟩

/-- **C8** witness: a record 3580 seconds from its listing fires the
3600-second threshold once, and with the key already in the ledger it
does not fire again. -/
theorem threshold_alert_once_witness :
    alertKeyCount ("Binance:ABC:3600".toList)
      (checkUpcomingListings ⟨2025, 7, 1, 9, 0, 20⟩
        [⟨"Binance", "ABC", ⟨2025, 7, 1, 10, 0, 0⟩, none, "upcoming"⟩] []).2.2 ≤ 1 ∧
    alertKeyCount ("Binance:ABC:3600".toList)
      (checkUpcomingListings ⟨2025, 7, 1, 9, 0, 20⟩
        [⟨"Binance", "ABC", ⟨2025, 7, 1, 10, 0, 0⟩, none, "upcoming"⟩]
        ["Binance:ABC:3600".toList]).2.2 = 0 :=
  ⟨(threshold_alert_once ⟨2025, 7, 1, 9, 0, 20⟩
      [⟨"Binance", "ABC", ⟨2025, 7, 1, 10, 0, 0⟩, none, "upcoming"⟩] []
      ⟨"Binance", "ABC", ⟨2025, 7, 1, 10, 0, 0⟩, none, "upcoming"⟩ 3600).2.2.1,
   (threshold_alert_once ⟨2025, 7, 1, 9, 0, 20⟩
      [⟨"Binance", "ABC", ⟨2025, 7, 1, 10, 0, 0⟩, none, "upcoming"⟩]
      ["Binance:ABC:3600".toList]
      ⟨"Binance", "ABC", ⟨2025, 7, 1, 10, 0, 0⟩, none, "upcoming"⟩ 3600).2.1
     (List.mem_cons_self _ _)⟩

end CryptoBot
